import Mathlib

/-!
Verification of the PyNDN data-packet encoding cache (src/python/pyndn/data.py)
and the abstract identity storage contract
(src/python/pyndn/security/identity/identity_storage.py).

The two Python source files are embedded shallowly below.  Helper classes that
the repository imports from modules outside the two source files (Blob,
SignedBlob, ChangeCounter, Name, MetaInfo, WireFormat, Common) are modelled
from the specification, as marked on each definition.
-/

namespace PyNDN

/-- Modelled from the spec: ByteBlob is an immutable byte sequence whose
isNull state (no data at all) is distinct from an empty sequence. -/
structure Blob where
  bytes : Option (List Nat)
deriving Repr, DecidableEq

/-- from pyndn.util Blob: a default-constructed Blob has no data. -/
def Blob.null : Blob := ⟨none⟩

/-- from pyndn.util Blob: isNull is true when the blob holds no data. -/
def Blob.isNull (b : Blob) : Bool := b.bytes.isNone

/-- Modelled from the spec: SignedByteBlob is a ByteBlob plus the begin and
end offsets of the byte range covered by a signature. -/
structure SignedBlob where
  blob : Blob
  signedBegin : Nat
  signedEnd : Nat
deriving Repr, DecidableEq

/-- from pyndn.util SignedBlob: a default-constructed SignedBlob is null. -/
def SignedBlob.null : SignedBlob := ⟨Blob.null, 0, 0⟩

/-- from pyndn.util SignedBlob: isNull of the underlying blob. -/
def SignedBlob.isNull (s : SignedBlob) : Bool := s.blob.isNull

/-- Modelled from the spec: a hierarchical Name is a component list, and every
trackable type carries its own monotonically increasing change counter. -/
structure Name where
  components : List String
  nameChangeCount : Nat
deriving Repr, DecidableEq

/-- Modelled from the spec: the Name model supports append of one component;
a mutation bumps the change counter of the object. -/
def Name.append (n : Name) (c : String) : Name :=
  ⟨n.components ++ [c], n.nameChangeCount + 1⟩

/-- Modelled from the spec: metadata value (content type and freshness lumped
into one opaque value) together with its own change counter. -/
structure MetaInfo where
  value : String
  metaChangeCount : Nat
deriving Repr, DecidableEq

/-- Modelled from the spec: every trackable type exposes a monotonic change
counter that ChangeCounter polls. -/
class HasChangeCount (α : Type) where
  getChangeCount : α → Nat

instance : HasChangeCount Name := ⟨fun n => n.nameChangeCount⟩

instance : HasChangeCount MetaInfo := ⟨fun m => m.metaChangeCount⟩

/-- Modelled from the spec: ChangeCounter (called ChangeTracker in the spec)
wraps a value and remembers the last observed value of its change counter. -/
structure ChangeCounter (α : Type) where
  target : α
  changeCount : Nat
deriving Repr, DecidableEq

/-- Modelled from the spec: construction observes the initial counter. -/
def ChangeCounter.init [HasChangeCount α] (t : α) : ChangeCounter α :=
  ⟨t, HasChangeCount.getChangeCount t⟩

/-- Modelled from the spec: get returns the wrapped value. -/
def ChangeCounter.get (c : ChangeCounter α) : α := c.target

/-- Modelled from the spec: set replaces the wrapped value outright and
re-baselines on the counter of the new value. -/
def ChangeCounter.set [HasChangeCount α] (_c : ChangeCounter α) (t : α) :
    ChangeCounter α :=
  ⟨t, HasChangeCount.getChangeCount t⟩

/-- Modelled from the spec: checkChanged compares the wrapped value against
the last-seen baseline; if different, it updates the baseline and returns
true, and repeated calls without intervening mutation return false. -/
def ChangeCounter.checkChanged [HasChangeCount α] (c : ChangeCounter α) :
    Bool × ChangeCounter α :=
  if c.changeCount ≠ HasChangeCount.getChangeCount c.target then
    (true, ⟨c.target, HasChangeCount.getChangeCount c.target⟩)
  else
    (false, c)

/-- Modelled from the spec: the external WireCodec, a stateless codec whose
encode is a deterministic function of the packet value (name components,
metaInfo value, content) and whose decode populates those fields and returns
the signed-range offsets.  A codec object has an identity fid; the process
compares wire formats by identity when deciding cache eligibility. -/
structure WireFormat where
  fid : Nat
  encodeData : List String → String → Blob → List Nat × Nat × Nat
  decodeData : List Nat → (List String × String × Blob) × Nat × Nat

/-- from Data.__init__ through the field list of the class: the packet owns a
name tracker, a metaInfo tracker, a content blob, the cached default wire
encoding with its format, the change-count snapshot taken when the cache was
last written or validated, and the change counter of the packet itself. -/
structure Data where
  name : ChangeCounter Name
  metaInfo : ChangeCounter MetaInfo
  content : Blob
  defaultWireEncoding : SignedBlob
  defaultWireEncodingFormat : Option Nat
  getDefaultWireEncodingChangeCount : Nat
  changeCount : Nat
deriving Repr, DecidableEq

/-- from Data.__init__: trackers on the (possibly empty) name and a fresh
MetaInfo, null content and cache, zero counters. -/
def Data.init (name : Option Name) : Data where
  name := ChangeCounter.init (match name with | some n => n | none => ⟨[], 0⟩)
  metaInfo := ChangeCounter.init ⟨"", 0⟩
  content := Blob.null
  defaultWireEncoding := SignedBlob.null
  defaultWireEncodingFormat := none
  getDefaultWireEncodingChangeCount := 0
  changeCount := 0

/-- from Data.getName. -/
def Data.getName (d : Data) : Name := d.name.get

/-- from Data.getMetaInfo. -/
def Data.getMetaInfo (d : Data) : MetaInfo := d.metaInfo.get

/-- from Data.getContent. -/
def Data.getContent (d : Data) : Blob := d.content

/-- from Data.getChangeCount: call checkChanged on the name tracker and on
the metaInfo tracker (both are always called), and if either reported a
change increment the change count once, then return it. -/
def Data.getChangeCount (d : Data) : Nat × Data :=
  let r1 := d.name.checkChanged
  let r2 := d.metaInfo.checkChanged
  let changed := r2.1 || r1.1
  let d1 : Data := { d with name := r1.2, metaInfo := r2.2 }
  if changed then
    let d2 : Data := { d1 with changeCount := d1.changeCount + 1 }
    (d2.changeCount, d2)
  else
    (d1.changeCount, d1)

/-- from Data.getDefaultWireEncodingFormat: a plain field read. -/
def Data.getDefaultWireEncodingFormat (d : Data) : Option Nat :=
  d.defaultWireEncodingFormat

/-- from Data.getDefaultWireEncoding: if the recorded change count differs
from the current change count, the values have changed, so null the cached
encoding and its format and re-record the change count; then return the
cached encoding.  The source calls getChangeCount once in the comparison and
once more inside the invalidation branch. -/
def Data.getDefaultWireEncoding (d : Data) : SignedBlob × Data :=
  let r := d.getChangeCount
  if d.getDefaultWireEncodingChangeCount ≠ r.1 then
    let d1 : Data :=
      { r.2 with defaultWireEncoding := SignedBlob.null,
                 defaultWireEncodingFormat := none }
    let r2 := d1.getChangeCount
    let d2 : Data := { r2.2 with getDefaultWireEncodingChangeCount := r2.1 }
    (d2.defaultWireEncoding, d2)
  else
    (r.2.defaultWireEncoding, r.2)

/-- from Data.setName: replace the name tracker target and bump the change
count. -/
def Data.setName (d : Data) (name : Name) : Data :=
  { d with name := d.name.set name, changeCount := d.changeCount + 1 }

/-- from Data.setMetaInfo: set the tracker to a fresh copy of the given
MetaInfo (or a fresh default MetaInfo when none is given) and bump the change
count.  The copy starts with its own change counter at zero. -/
def Data.setMetaInfo (d : Data) (metaInfo : Option MetaInfo) : Data :=
  { d with
    metaInfo := d.metaInfo.set
      (match metaInfo with
       | none => ⟨"", 0⟩
       | some m => ⟨m.value, 0⟩),
    changeCount := d.changeCount + 1 }

/-- from Data.setContent: replace the content blob and bump the change
count. -/
def Data.setContent (d : Data) (content : Blob) : Data :=
  { d with content := content, changeCount := d.changeCount + 1 }

/-- from Data._setDefaultWireEncoding: store the encoding and its format,
then record the current change count so the next getDefaultWireEncoding does
not clear the cache. -/
def Data.setDefaultWireEncodingPrivate (d : Data) (enc : SignedBlob)
    (fmt : Option Nat) : Data :=
  let d1 : Data :=
    { d with defaultWireEncoding := enc, defaultWireEncodingFormat := fmt }
  let r := d1.getChangeCount
  { r.2 with getDefaultWireEncodingChangeCount := r.1 }

/-- from Data.wireEncode: if the cached default encoding is non-null and its
format equals the requested format, return the cached encoding without
invoking the codec; otherwise invoke the codec, and when the requested
format is the default wire format also store the result in the cache.  The
returned Bool records whether the codec (encodeData) was invoked, the
observable the claims are about. -/
def Data.wireEncode (defaultWireFormat wireFormat : WireFormat) (d : Data) :
    SignedBlob × Data × Bool :=
  let r1 := d.getDefaultWireEncoding
  if r1.1.isNull = false ∧
      r1.2.getDefaultWireEncodingFormat = some wireFormat.fid then
    let r2 := r1.2.getDefaultWireEncoding
    (r2.1, r2.2, false)
  else
    let t := wireFormat.encodeData r1.2.getName.components
      r1.2.getMetaInfo.value r1.2.getContent
    let wireEncoding : SignedBlob := ⟨⟨some t.1⟩, t.2.1, t.2.2⟩
    if wireFormat.fid = defaultWireFormat.fid then
      (wireEncoding,
       r1.2.setDefaultWireEncodingPrivate wireEncoding
         (some defaultWireFormat.fid),
       true)
    else
      (wireEncoding, r1.2, true)

/-- from Data.wireDecode: the byte buffer handed to the codec is buf() of the
input when the input is a Blob and the input itself otherwise. -/
def bufOf : Blob ⊕ List Nat → List Nat
  | Sum.inl b => match b.bytes with | some l => l | none => []
  | Sum.inr l => l

/-- from Data.wireDecode: Blob(input, True) takes another pointer to the same
Blob when the input is already a Blob and copies the bytes otherwise. -/
def Blob.ofInput : Blob ⊕ List Nat → Blob
  | Sum.inl b => b
  | Sum.inr l => ⟨some l⟩

/-- from Data.wireDecode: take the byte buffer of the input, let the codec
populate name, metaInfo and content (the decoder assigns through the setters)
and return the signed-range offsets; if the format is the default wire
format, cache a SignedBlob built from the input (another pointer when the
input is already a Blob, a copy otherwise), else store a null cache with no
format. -/
def Data.wireDecode (defaultWireFormat wireFormat : WireFormat) (d : Data)
    (input : Blob ⊕ List Nat) : Data :=
  let r := wireFormat.decodeData (bufOf input)
  let d1 :=
    ((d.setName ⟨r.1.1, 0⟩).setMetaInfo (some ⟨r.1.2.1, 0⟩)).setContent r.1.2.2
  if wireFormat.fid = defaultWireFormat.fid then
    d1.setDefaultWireEncodingPrivate ⟨Blob.ofInput input, r.2.1, r.2.2⟩
      (some defaultWireFormat.fid)
  else
    d1.setDefaultWireEncodingPrivate SignedBlob.null none

/-- The public operations on a Data packet, used to quantify over operation
sequences.  Each constructor names the source method it steps. -/
inductive DataOp where
  | opSetName (n : Name)
  | opSetMetaInfo (m : Option MetaInfo)
  | opSetContent (c : Blob)
  | opGetChangeCount
  | opWireEncode (wf : WireFormat)
  | opWireDecode (wf : WireFormat) (input : Blob ⊕ List Nat)
  | opGetDefaultWireEncoding

/-- One public operation applied to the packet state, with the process-wide
default wire format fixed. -/
def DataOp.step (defaultWF : WireFormat) (d : Data) : DataOp → Data
  | .opSetName n => d.setName n
  | .opSetMetaInfo m => d.setMetaInfo m
  | .opSetContent c => d.setContent c
  | .opGetChangeCount => d.getChangeCount.2
  | .opWireEncode wf => (Data.wireEncode defaultWF wf d).2.1
  | .opWireDecode wf input => Data.wireDecode defaultWF wf d input
  | .opGetDefaultWireEncoding => d.getDefaultWireEncoding.2

/-- The change count a caller observes from getChangeCount at this state. -/
def Data.observeCount (d : Data) : Nat := d.getChangeCount.1

/-- The pair a caller observes from the default-encoding getters, calling
getDefaultWireEncoding first (the source documents the format as meaningful
only together with the encoding) and getDefaultWireEncodingFormat on the
resulting state. -/
def Data.observeDefault (d : Data) : SignedBlob × Option Nat :=
  let r := d.getDefaultWireEncoding
  (r.1, r.2.getDefaultWireEncodingFormat)

/-- The SignedBlob that wireEncode builds from the codec output on the value
of this packet (encoding bytes plus the signed-portion offsets). -/
def freshEncoding (wf : WireFormat) (d : Data) : SignedBlob :=
  let t := wf.encodeData d.getName.components d.getMetaInfo.value d.getContent
  ⟨⟨some t.1⟩, t.2.1, t.2.2⟩

/-- A concrete codec used to evaluate the theorems on closed inputs. -/
def testCodecA : WireFormat :=
  ⟨0, fun _ _ _ => ([7, 8], 1, 2), fun _ => ((["a"], "m", ⟨some [9]⟩), 0, 1)⟩

/-- A second concrete codec with a distinct identity, used as the
non-default format in closed evaluations. -/
def testCodecB : WireFormat :=
  ⟨1, fun _ _ _ => ([5], 0, 1), fun _ => ((["b"], "n", Blob.null), 0, 0)⟩

/-- A codec whose decode inverts its encode on the value of testPacket, used
to evaluate the round-trip theorem on a closed input. -/
def testCodecC : WireFormat :=
  ⟨2, fun _ _ _ => ([3, 4], 0, 2), fun _ => ((["x"], "y", ⟨some [1]⟩), 0, 2)⟩

/-- A packet populated by a default-format wireDecode of the bytes [9, 9]
under testCodecC: its value is the decode output and its current cache holds
the input bytes, which are not the codec encoding of the value but decode to
it. -/
def testDecodedPacket : Data :=
  Data.wireDecode testCodecC testCodecC (Data.init none) (Sum.inr [9, 9])

/-- A packet state whose trackers have no pending child change: each tracker
baseline equals the change counter of its target.  Every state reached right
after a getChangeCount call satisfies this. -/
def Data.settled (d : Data) : Prop :=
  d.name.changeCount = d.name.target.nameChangeCount ∧
  d.metaInfo.changeCount = d.metaInfo.target.metaChangeCount

instance (d : Data) : Decidable d.settled := by
  unfold Data.settled
  infer_instance

/-- A settled packet state whose recorded cache change count equals the
current change count; getDefaultWireEncoding leaves its cache alone exactly
on such states. -/
def Data.coherent (d : Data) : Prop :=
  d.settled ∧ d.getDefaultWireEncodingChangeCount = d.changeCount

instance (d : Data) : Decidable d.coherent := by
  unfold Data.coherent
  infer_instance

/-- The cache-format invariant of reachable packet states: the recorded
default-encoding format is either absent or the identity of the process-wide
default wire format (the source writes no other value into the field). -/
def Data.formatOK (defaultWF : WireFormat) (d : Data) : Prop :=
  d.defaultWireEncodingFormat = none ∨
  d.defaultWireEncodingFormat = some defaultWF.fid

/-- The cache-count invariant of reachable packet states: the recorded cache
change count was taken from the change counter at some earlier point, and
the counter never decreases, so the record never exceeds the counter. -/
def Data.cacheBound (d : Data) : Prop :=
  d.getDefaultWireEncodingChangeCount ≤ d.changeCount

/-- The cache-content invariant of reachable packet states: whenever the
cached default encoding is current (its recorded change count matches the
change count), carries the format wf and is non-null, its bytes decode under
wf to the current packet value.  A cache written by wireEncode holds the
codec encoding of the value (decode-faithful by the codec contract); a cache
written by wireDecode holds the input bytes whose decode populated the
value.  A stale cache satisfies this vacuously: the lazy getter clears it
before it can be returned. -/
def Data.cacheDecodes (wf : WireFormat) (d : Data) : Prop :=
  d.getDefaultWireEncodingChangeCount = d.getChangeCount.1 →
  d.defaultWireEncodingFormat = some wf.fid →
  d.defaultWireEncoding.isNull = false →
  (wf.decodeData (bufOf (Sum.inl d.defaultWireEncoding.blob))).1 =
    (d.getName.components, d.getMetaInfo.value, d.getContent)

/-- The source compares wire formats by object identity, so an operation
argument sharing the identity of the default wire format is that very
object. -/
def DataOp.identifiesFormat (dWF : WireFormat) : DataOp → Prop
  | .opWireEncode wf => wf.fid = dWF.fid → wf = dWF
  | .opWireDecode wf _ => wf.fid = dWF.fid → wf = dWF
  | _ => True

/-!  The identity storage contract
(src/python/pyndn/security/identity/identity_storage.py). -/

/-- Python-level errors the embedded methods can raise. -/
inductive PyError where
  | securityException (msg : String)
  | runtimeError (msg : String)
  | nameError (unresolvedGlobal : String)
deriving Repr, DecidableEq

/-- Modelled from the spec: the observable state of an identity storage
backend, holding identities, keys (name, key type, public key DER, active
flag), certificates (name and encoded bytes) and the three default
pointers. -/
structure StoreState where
  identities : List (List String)
  keys : List (List String × Nat × List Nat × Bool)
  certificates : List (List String × List Nat)
  defaultIdentity : Option (List String)
  defaultKeyFor : List (List String × List String)
  defaultCertFor : List (List String × List String)
deriving Repr, DecidableEq

/-- Modelled from the spec: a backend implementation of doesKeyExist is a
read of the store, returning whether a key of that name is present and
leaving the state as it was. -/
def StoreState.doesKeyExist (st : StoreState) (keyName : List String) :
    Bool × StoreState :=
  ((st.keys.map (fun k => k.1)).contains keyName, st)

/-- from IdentityStorage.getNewKeyName: build the key id string from the
current time in unix seconds (the source floors getNowMilliseconds over 1000
and strips the trailing ".0" of the float repr, modelled as the decimal
string of the natural-number quotient), prefix it with KSK- or DSK-, append
it to a copy of the identity name, raise a SecurityException when
doesKeyExist reports the candidate, and return the candidate otherwise.
The backend read doesKeyExist is abstract in the base class and is passed in
as a predicate on the name value. -/
def getNewKeyName (doesKeyExist : List String → Bool) (identityName : Name)
    (useKsk : Bool) (nowMilliseconds : Nat) : Except PyError Name :=
  let nowString := toString (nowMilliseconds / 1000)
  let keyIdStr :=
    if useKsk then "KSK-" ++ nowString else "DSK-" ++ nowString
  let keyName :=
    (Name.mk identityName.components identityName.nameChangeCount).append
      keyIdStr
  if doesKeyExist keyName.components then
    Except.error (PyError.securityException "Key name already exists")
  else
    Except.ok keyName

/-- from IdentityStorage.getNewKeyName, run against a concrete backend state:
identical to getNewKeyName except that the doesKeyExist read threads the
store state, so that the frame effect on the store is visible. -/
def getNewKeyNameSt (st : StoreState) (identityName : Name) (useKsk : Bool)
    (nowMilliseconds : Nat) : Except PyError Name × StoreState :=
  let nowString := toString (nowMilliseconds / 1000)
  let keyIdStr :=
    if useKsk then "KSK-" ++ nowString else "DSK-" ++ nowString
  let keyName :=
    (Name.mk identityName.components identityName.nameChangeCount).append
      keyIdStr
  let r := st.doesKeyExist keyName.components
  if r.1 then
    (Except.error (PyError.securityException "Key name already exists"), r.2)
  else
    (Except.ok keyName, r.2)

/-- from the module scope of identity_storage.py: the global names bound at
module level are the imports math, Common, SecurityException and the class
IdentityStorage itself. -/
def identityStorageModuleGlobals : List String :=
  ["math", "Common", "SecurityException", "IdentityStorage"]

/-- from the module scope of identity_storage.py: none of the module-level
globals is a callable from a Name to a Name, so the table of such callables
reachable from a bare identifier in a method body is empty. -/
def moduleCallableGlobals : List (String × (Name → Except PyError Name)) := []

/-- Modelled from Python name resolution: calling a bare global identifier
invokes the bound callable when one exists and raises NameError otherwise. -/
def callGlobal (g : String) (arg : Name) : Except PyError Name :=
  match (moduleCallableGlobals.filter (fun p => p.1 = g)).head? with
  | some p => p.2 arg
  | none => Except.error (PyError.nameError g)

namespace IdentityStorageBase

/-- from IdentityStorage.getDefaultCertificateNameForIdentity: resolve the
default key name of the identity through self, then evaluate the bare
identifier getDefaultCertificateNameForKey in the module global scope (the
source line 201 does not access it through self) and call it on the key
name.  The abstract self.getDefaultKeyNameForIdentity is passed in as the
backend implementation. -/
def getDefaultCertificateNameForIdentity
    (getDefaultKeyNameForIdentityImpl : Name → Except PyError Name)
    (identityName : Name) : Except PyError Name := do
  let keyName ← getDefaultKeyNameForIdentityImpl identityName
  callGlobal "getDefaultCertificateNameForKey" keyName

/-- from IdentityStorage.doesIdentityExist on the base class. -/
def doesIdentityExist (st : StoreState) (_identityName : Name) :
    Except PyError Bool × StoreState :=
  (Except.error (PyError.runtimeError "doesIdentityExist is not implemented"),
   st)

/-- from IdentityStorage.addIdentity on the base class (the source raises
with the copy-pasted message of doesIdentityExist). -/
def addIdentity (st : StoreState) (_identityName : Name) :
    Except PyError Unit × StoreState :=
  (Except.error (PyError.runtimeError "doesIdentityExist is not implemented"),
   st)

/-- from IdentityStorage.revokeIdentity on the base class (the source raises
with the copy-pasted message of doesIdentityExist). -/
def revokeIdentity (st : StoreState) :
    Except PyError Bool × StoreState :=
  (Except.error (PyError.runtimeError "doesIdentityExist is not implemented"),
   st)

/-- from IdentityStorage.doesKeyExist on the base class. -/
def doesKeyExist (st : StoreState) (_keyName : Name) :
    Except PyError Bool × StoreState :=
  (Except.error (PyError.runtimeError "doesKeyExist is not implemented"), st)

/-- from IdentityStorage.addKey on the base class. -/
def addKey (st : StoreState) (_keyName : Name) (_keyType : Nat)
    (_publicKeyDer : Blob) : Except PyError Unit × StoreState :=
  (Except.error (PyError.runtimeError "addKey is not implemented"), st)

/-- from IdentityStorage.getKey on the base class. -/
def getKey (st : StoreState) (_keyName : Name) :
    Except PyError Blob × StoreState :=
  (Except.error (PyError.runtimeError "getKey is not implemented"), st)

/-- from IdentityStorage.activateKey on the base class. -/
def activateKey (st : StoreState) (_keyName : Name) :
    Except PyError Unit × StoreState :=
  (Except.error (PyError.runtimeError "activateKey is not implemented"), st)

/-- from IdentityStorage.deactivateKey on the base class. -/
def deactivateKey (st : StoreState) (_keyName : Name) :
    Except PyError Unit × StoreState :=
  (Except.error (PyError.runtimeError "deactivateKey is not implemented"), st)

/-- from IdentityStorage.doesCertificateExist on the base class. -/
def doesCertificateExist (st : StoreState) (_certificateName : Name) :
    Except PyError Bool × StoreState :=
  (Except.error
    (PyError.runtimeError "doesCertificateExist is not implemented"), st)

/-- from IdentityStorage.addCertificate on the base class; the certificate
argument is opaque to the base class. -/
def addCertificate (st : StoreState) (_certificate : List Nat) :
    Except PyError Unit × StoreState :=
  (Except.error (PyError.runtimeError "addCertificate is not implemented"),
   st)

/-- from IdentityStorage.getCertificate on the base class. -/
def getCertificate (st : StoreState) (_certificateName : Name)
    (_allowAny : Bool) : Except PyError (Option (List Nat)) × StoreState :=
  (Except.error (PyError.runtimeError "getCertificate is not implemented"),
   st)

/-- from IdentityStorage.getDefaultIdentity on the base class. -/
def getDefaultIdentity (st : StoreState) :
    Except PyError Name × StoreState :=
  (Except.error (PyError.runtimeError "getDefaultIdentity is not implemented"),
   st)

/-- from IdentityStorage.getDefaultKeyNameForIdentity on the base class. -/
def getDefaultKeyNameForIdentity (st : StoreState) (_identityName : Name) :
    Except PyError Name × StoreState :=
  (Except.error
    (PyError.runtimeError "getDefaultKeyNameForIdentity is not implemented"),
   st)

/-- from IdentityStorage.getDefaultCertificateNameForKey on the base
class. -/
def getDefaultCertificateNameForKey (st : StoreState) (_keyName : Name) :
    Except PyError Name × StoreState :=
  (Except.error
    (PyError.runtimeError
      "getDefaultCertificateNameForKey is not implemented"), st)

/-- from IdentityStorage.setDefaultIdentity on the base class. -/
def setDefaultIdentity (st : StoreState) (_identityName : Name) :
    Except PyError Unit × StoreState :=
  (Except.error (PyError.runtimeError "setDefaultIdentity is not implemented"),
   st)

/-- from IdentityStorage.setDefaultKeyNameForIdentity on the base class. -/
def setDefaultKeyNameForIdentity (st : StoreState) (_keyName : Name)
    (_identityNameCheck : Option Name) : Except PyError Unit × StoreState :=
  (Except.error
    (PyError.runtimeError
      "setDefaultKeyNameForIdentity is not implemented"), st)

/-- from IdentityStorage.setDefaultCertificateNameForKey on the base
class. -/
def setDefaultCertificateNameForKey (st : StoreState) (_keyName : Name)
    (_certificateName : Name) : Except PyError Unit × StoreState :=
  (Except.error
    (PyError.runtimeError
      "setDefaultCertificateNameForKey is not implemented"), st)

end IdentityStorageBase

/-- The outcome required of every base-class storage method: an error of the
runtime kind whose message says some operation is not implemented, and an
unchanged store state. -/
def notImplementedResult {α : Type} (r : Except PyError α × StoreState)
    (st : StoreState) : Prop :=
  (∃ m, r.1 = Except.error (PyError.runtimeError (m ++ " is not implemented")))
  ∧ r.2 = st

/-!  Lemmas about the change tracker and the packet change count. -/

theorem checkChanged_snd_target [HasChangeCount α] (c : ChangeCounter α) :
    c.checkChanged.2.target = c.target := by
  unfold ChangeCounter.checkChanged
  split <;> rfl

theorem checkChanged_snd_baseline [HasChangeCount α] (c : ChangeCounter α) :
    c.checkChanged.2.changeCount = HasChangeCount.getChangeCount c.target := by
  unfold ChangeCounter.checkChanged
  split
  · rfl
  · next h => simpa using h

theorem checkChanged_of_baseline [HasChangeCount α] (c : ChangeCounter α)
    (h : c.changeCount = HasChangeCount.getChangeCount c.target) :
    c.checkChanged = (false, c) := by
  unfold ChangeCounter.checkChanged
  simp [h]

theorem name_getChangeCount (n : Name) :
    HasChangeCount.getChangeCount n = n.nameChangeCount := rfl

theorem metaInfo_getChangeCount (m : MetaInfo) :
    HasChangeCount.getChangeCount m = m.metaChangeCount := rfl

theorem getChangeCount_snd_settled (d : Data) : d.getChangeCount.2.settled := by
  unfold Data.getChangeCount Data.settled
  dsimp only
  split <;>
    exact ⟨by rw [checkChanged_snd_target, checkChanged_snd_baseline]; rfl, 
           by rw [checkChanged_snd_target, checkChanged_snd_baseline]; rfl⟩

theorem getChangeCount_of_settled (d : Data) (h : d.settled) :
    d.getChangeCount = (d.changeCount, d) := by
  obtain ⟨h1, h2⟩ := h
  unfold Data.getChangeCount
  rw [checkChanged_of_baseline d.name h1,
      checkChanged_of_baseline d.metaInfo h2]
  rfl

theorem getChangeCount_fst_eq (d : Data) :
    d.getChangeCount.1 = d.getChangeCount.2.changeCount := by
  unfold Data.getChangeCount
  dsimp only
  split <;> rfl

theorem getChangeCount_idem (d : Data) :
    d.getChangeCount.2.getChangeCount =
      (d.getChangeCount.1, d.getChangeCount.2) := by
  rw [getChangeCount_of_settled _ (getChangeCount_snd_settled d),
      getChangeCount_fst_eq]

theorem getChangeCount_snd_content (d : Data) :
    d.getChangeCount.2.content = d.content := by
  unfold Data.getChangeCount
  dsimp only
  split <;> rfl

theorem getChangeCount_snd_dwe (d : Data) :
    d.getChangeCount.2.defaultWireEncoding = d.defaultWireEncoding := by
  unfold Data.getChangeCount
  dsimp only
  split <;> rfl

theorem getChangeCount_snd_dwef (d : Data) :
    d.getChangeCount.2.defaultWireEncodingFormat =
      d.defaultWireEncodingFormat := by
  unfold Data.getChangeCount
  dsimp only
  split <;> rfl

theorem getChangeCount_snd_gdwecc (d : Data) :
    d.getChangeCount.2.getDefaultWireEncodingChangeCount =
      d.getDefaultWireEncodingChangeCount := by
  unfold Data.getChangeCount
  dsimp only
  split <;> rfl

theorem getChangeCount_snd_nameTarget (d : Data) :
    d.getChangeCount.2.name.target = d.name.target := by
  unfold Data.getChangeCount
  dsimp only
  split <;> simpa using checkChanged_snd_target d.name

theorem getChangeCount_snd_metaTarget (d : Data) :
    d.getChangeCount.2.metaInfo.target = d.metaInfo.target := by
  unfold Data.getChangeCount
  dsimp only
  split <;> simpa using checkChanged_snd_target d.metaInfo

theorem getChangeCount_fst_lower (d : Data) :
    d.changeCount ≤ d.getChangeCount.1 := by
  unfold Data.getChangeCount
  dsimp only
  split
  · exact Nat.le_succ _
  · exact Nat.le_refl _

theorem getChangeCount_fst_upper (d : Data) :
    d.getChangeCount.1 ≤ d.changeCount + 1 := by
  unfold Data.getChangeCount
  dsimp only
  split
  · exact Nat.le_refl _
  · exact Nat.le_succ _

/-!  Lemmas about the lazy cache getter getDefaultWireEncoding. -/

theorem getDefaultWireEncoding_fresh (d : Data)
    (h : d.getDefaultWireEncodingChangeCount = d.getChangeCount.1) :
    d.getDefaultWireEncoding = (d.defaultWireEncoding, d.getChangeCount.2) := by
  unfold Data.getDefaultWireEncoding
  dsimp only
  rw [if_neg (not_ne_iff.mpr h), getChangeCount_snd_dwe]

theorem getDefaultWireEncoding_stale (d : Data)
    (h : d.getDefaultWireEncodingChangeCount ≠ d.getChangeCount.1) :
    d.getDefaultWireEncoding =
      (SignedBlob.null,
       { d.getChangeCount.2 with
           defaultWireEncoding := SignedBlob.null,
           defaultWireEncodingFormat := none,
           getDefaultWireEncodingChangeCount := d.getChangeCount.1 }) := by
  unfold Data.getDefaultWireEncoding
  dsimp only
  rw [if_pos h,
      getChangeCount_of_settled
        { d.getChangeCount.2 with
            defaultWireEncoding := SignedBlob.null,
            defaultWireEncodingFormat := none }
        (getChangeCount_snd_settled d)]
  dsimp only
  rw [← getChangeCount_fst_eq]

theorem getDefaultWireEncoding_of_coherent (d : Data) (h : d.coherent) :
    d.getDefaultWireEncoding = (d.defaultWireEncoding, d) := by
  obtain ⟨hs, hc⟩ := h
  rw [getDefaultWireEncoding_fresh d
    (by rw [getChangeCount_of_settled d hs]; exact hc),
    getChangeCount_of_settled d hs]

theorem getDefaultWireEncoding_snd_coherent (d : Data) :
    d.getDefaultWireEncoding.2.coherent := by
  by_cases h : d.getDefaultWireEncodingChangeCount = d.getChangeCount.1
  · rw [getDefaultWireEncoding_fresh d h]
    exact ⟨getChangeCount_snd_settled d,
      by rw [getChangeCount_snd_gdwecc, ← getChangeCount_fst_eq, h]⟩
  · rw [getDefaultWireEncoding_stale d h]
    exact ⟨getChangeCount_snd_settled d, getChangeCount_fst_eq d⟩

theorem getDefaultWireEncoding_fst_eq (d : Data) :
    d.getDefaultWireEncoding.1 =
      d.getDefaultWireEncoding.2.defaultWireEncoding := by
  by_cases h : d.getDefaultWireEncodingChangeCount = d.getChangeCount.1
  · rw [getDefaultWireEncoding_fresh d h, getChangeCount_snd_dwe]
  · rw [getDefaultWireEncoding_stale d h]

theorem getDefaultWireEncoding_snd_changeCount (d : Data) :
    d.getDefaultWireEncoding.2.changeCount = d.getChangeCount.1 := by
  by_cases h : d.getDefaultWireEncodingChangeCount = d.getChangeCount.1
  · rw [getDefaultWireEncoding_fresh d h, ← getChangeCount_fst_eq]
  · rw [getDefaultWireEncoding_stale d h, ← getChangeCount_fst_eq]

theorem getDefaultWireEncoding_snd_content (d : Data) :
    d.getDefaultWireEncoding.2.content = d.content := by
  by_cases h : d.getDefaultWireEncodingChangeCount = d.getChangeCount.1
  · rw [getDefaultWireEncoding_fresh d h, getChangeCount_snd_content]
  · rw [getDefaultWireEncoding_stale d h]
    exact getChangeCount_snd_content d

theorem getDefaultWireEncoding_snd_nameTarget (d : Data) :
    d.getDefaultWireEncoding.2.name.target = d.name.target := by
  by_cases h : d.getDefaultWireEncodingChangeCount = d.getChangeCount.1
  · rw [getDefaultWireEncoding_fresh d h, getChangeCount_snd_nameTarget]
  · rw [getDefaultWireEncoding_stale d h]
    exact getChangeCount_snd_nameTarget d

theorem getDefaultWireEncoding_snd_metaTarget (d : Data) :
    d.getDefaultWireEncoding.2.metaInfo.target = d.metaInfo.target := by
  by_cases h : d.getDefaultWireEncodingChangeCount = d.getChangeCount.1
  · rw [getDefaultWireEncoding_fresh d h, getChangeCount_snd_metaTarget]
  · rw [getDefaultWireEncoding_stale d h]
    exact getChangeCount_snd_metaTarget d

theorem getDefaultWireEncoding_observeCount (d : Data) :
    d.getDefaultWireEncoding.2.observeCount = d.observeCount := by
  unfold Data.observeCount
  rw [getChangeCount_of_settled _ (getDefaultWireEncoding_snd_coherent d).1]
  exact getDefaultWireEncoding_snd_changeCount d

theorem freshEncoding_getDefaultWireEncoding_snd (wf : WireFormat) (d : Data) :
    freshEncoding wf d.getDefaultWireEncoding.2 = freshEncoding wf d := by
  unfold freshEncoding Data.getName Data.getMetaInfo Data.getContent
    ChangeCounter.get
  rw [getDefaultWireEncoding_snd_nameTarget,
      getDefaultWireEncoding_snd_metaTarget,
      getDefaultWireEncoding_snd_content]

/-!  Lemmas about the private cache setter and the setters. -/

theorem setDefaultWireEncodingPrivate_of_settled (d : Data) (hs : d.settled)
    (enc : SignedBlob) (fmt : Option Nat) :
    d.setDefaultWireEncodingPrivate enc fmt =
      { d with defaultWireEncoding := enc, defaultWireEncodingFormat := fmt,
               getDefaultWireEncodingChangeCount := d.changeCount } := by
  unfold Data.setDefaultWireEncodingPrivate
  dsimp only
  rw [getChangeCount_of_settled
        { d with
            defaultWireEncoding := enc,
            defaultWireEncodingFormat := fmt }
        hs]

theorem settled_setters (d : Data) (n : Name) (m : Option MetaInfo)
    (c : Blob) : (((d.setName n).setMetaInfo m).setContent c).settled :=
  ⟨rfl, rfl⟩

theorem settled_setName (d : Data) (hs : d.settled) (n : Name) :
    (d.setName n).settled := ⟨rfl, hs.2⟩

theorem settled_setMetaInfo (d : Data) (hs : d.settled) (m : Option MetaInfo) :
    (d.setMetaInfo m).settled := ⟨hs.1, rfl⟩

theorem settled_setContent (d : Data) (hs : d.settled) (c : Blob) :
    (d.setContent c).settled := hs

/-!  Characterization of wireEncode. -/

theorem wireEncode_hit (dWF wf : WireFormat) (d : Data)
    (h1 : d.getDefaultWireEncoding.1.isNull = false)
    (h2 : d.getDefaultWireEncoding.2.defaultWireEncodingFormat =
      some wf.fid) :
    Data.wireEncode dWF wf d =
      (d.getDefaultWireEncoding.1, d.getDefaultWireEncoding.2, false) := by
  unfold Data.wireEncode Data.getDefaultWireEncodingFormat
  dsimp only
  rw [if_pos (And.intro h1 h2),
      getDefaultWireEncoding_of_coherent _
        (getDefaultWireEncoding_snd_coherent d),
      ← getDefaultWireEncoding_fst_eq]

theorem wireEncode_miss_default (dWF : WireFormat) (d : Data)
    (h : ¬(d.getDefaultWireEncoding.1.isNull = false ∧
           d.getDefaultWireEncoding.2.defaultWireEncodingFormat =
             some dWF.fid)) :
    Data.wireEncode dWF dWF d =
      (freshEncoding dWF d.getDefaultWireEncoding.2,
       { d.getDefaultWireEncoding.2 with
           defaultWireEncoding := freshEncoding dWF d.getDefaultWireEncoding.2,
           defaultWireEncodingFormat := some dWF.fid,
           getDefaultWireEncodingChangeCount :=
             d.getDefaultWireEncoding.2.changeCount },
       true) := by
  unfold Data.wireEncode Data.getDefaultWireEncodingFormat
  dsimp only
  rw [if_neg h, if_pos rfl,
      setDefaultWireEncodingPrivate_of_settled _
        (getDefaultWireEncoding_snd_coherent d).1]
  rfl

theorem wireEncode_miss_nondefault (dWF wf : WireFormat) (d : Data)
    (hf : wf.fid ≠ dWF.fid)
    (h : ¬(d.getDefaultWireEncoding.1.isNull = false ∧
           d.getDefaultWireEncoding.2.defaultWireEncodingFormat =
             some wf.fid)) :
    Data.wireEncode dWF wf d =
      (freshEncoding wf d.getDefaultWireEncoding.2,
       d.getDefaultWireEncoding.2, true) := by
  unfold Data.wireEncode Data.getDefaultWireEncodingFormat
  dsimp only
  rw [if_neg h, if_neg hf]
  rfl

/-!  The state right after a default-format wireEncode. -/

theorem wireEncode_default_post (dWF : WireFormat) (d : Data) :
    (Data.wireEncode dWF dWF d).2.1.coherent ∧
    (Data.wireEncode dWF dWF d).2.1.defaultWireEncoding =
      (Data.wireEncode dWF dWF d).1 ∧
    (Data.wireEncode dWF dWF d).2.1.defaultWireEncoding.isNull = false ∧
    (Data.wireEncode dWF dWF d).2.1.defaultWireEncodingFormat =
      some dWF.fid := by
  by_cases hc : d.getDefaultWireEncoding.1.isNull = false ∧
      d.getDefaultWireEncoding.2.defaultWireEncodingFormat = some dWF.fid
  · rw [wireEncode_hit dWF dWF d hc.1 hc.2]
    refine ⟨getDefaultWireEncoding_snd_coherent d,
      (getDefaultWireEncoding_fst_eq d).symm, ?_, hc.2⟩
    rw [← getDefaultWireEncoding_fst_eq]
    exact hc.1
  · rw [wireEncode_miss_default dWF d hc]
    exact ⟨⟨(getDefaultWireEncoding_snd_coherent d).1, rfl⟩, rfl, rfl, rfl⟩

theorem wireEncode_cached_eval (dWF wf : WireFormat) (s : Data)
    (hcoh : s.coherent) (hnull : s.defaultWireEncoding.isNull = false)
    (hfmt : s.defaultWireEncodingFormat = some wf.fid) :
    Data.wireEncode dWF wf s = (s.defaultWireEncoding, s, false) := by
  have hg := getDefaultWireEncoding_of_coherent s hcoh
  rw [wireEncode_hit dWF wf s (by rw [hg]; exact hnull)
        (by rw [hg]; exact hfmt), hg]

theorem wireEncode_called_of_stale (dWF wf : WireFormat) (d : Data)
    (hs : d.settled)
    (hne : d.getDefaultWireEncodingChangeCount ≠ d.changeCount) :
    (Data.wireEncode dWF wf d).2.2 = true := by
  have hne2 : d.getDefaultWireEncodingChangeCount ≠ d.getChangeCount.1 := by
    rw [getChangeCount_of_settled d hs]
    exact hne
  have hst := getDefaultWireEncoding_stale d hne2
  have hcond : ¬(d.getDefaultWireEncoding.1.isNull = false ∧
      d.getDefaultWireEncoding.2.defaultWireEncodingFormat = some wf.fid) := by
    rw [hst]
    simp [SignedBlob.isNull, SignedBlob.null, Blob.isNull, Blob.null]
  unfold Data.wireEncode Data.getDefaultWireEncodingFormat
  dsimp only
  rw [if_neg hcond]
  split <;> rfl

/-- C1: for every Data packet, calling wireEncode with the default wire
format twice with no mutation of the packet in between returns the same
encoded bytes both times, and the second call performs no codec invocation
(the invoked-codec flag of the second call is false). -/
theorem wireEncode_cache_coherence (dWF : WireFormat) (d : Data) :
    (Data.wireEncode dWF dWF (Data.wireEncode dWF dWF d).2.1).1 =
      (Data.wireEncode dWF dWF d).1 ∧
    (Data.wireEncode dWF dWF (Data.wireEncode dWF dWF d).2.1).2.2 = false := by
  obtain ⟨hcoh, hdwe, hnull, hfmt⟩ := wireEncode_default_post dWF d
  rw [wireEncode_cached_eval dWF dWF _ hcoh hnull hfmt]
  exact ⟨hdwe, rfl⟩

/-- C2: starting from a packet whose default-format encoding is cached (the
state right after a default-format wireEncode), each single setter call
(setName, setMetaInfo or setContent) makes the next default-format
wireEncode invoke the codec, the wireEncode after that one invokes no codec
again (exactly one net call), and getChangeCount increments the packet
change counter at most once per call even when both the name tracker and the
metaInfo tracker report a change. -/
theorem wireEncode_invalidation_one_net_call (dWF : WireFormat) (d : Data)
    (n : Name) (m : Option MetaInfo) (c : Blob) :
    (Data.wireEncode dWF dWF
      ((Data.wireEncode dWF dWF d).2.1.setName n)).2.2 = true ∧
    (Data.wireEncode dWF dWF
      ((Data.wireEncode dWF dWF d).2.1.setMetaInfo m)).2.2 = true ∧
    (Data.wireEncode dWF dWF
      ((Data.wireEncode dWF dWF d).2.1.setContent c)).2.2 = true ∧
    (Data.wireEncode dWF dWF
      (Data.wireEncode dWF dWF
        ((Data.wireEncode dWF dWF d).2.1.setContent c)).2.1).2.2 = false ∧
    (∀ d2 : Data, d2.getChangeCount.1 ≤ d2.changeCount + 1) := by
  obtain ⟨⟨hs, hcc⟩, _, _, _⟩ := wireEncode_default_post dWF d
  refine ⟨?_, ?_, ?_, ?_, getChangeCount_fst_upper⟩
  · exact wireEncode_called_of_stale dWF dWF _ (settled_setName _ hs n)
      (by simp [Data.setName, hcc])
  · exact wireEncode_called_of_stale dWF dWF _ (settled_setMetaInfo _ hs m)
      (by simp [Data.setMetaInfo, hcc])
  · exact wireEncode_called_of_stale dWF dWF _ (settled_setContent _ hs c)
      (by simp [Data.setContent, hcc])
  · obtain ⟨hcoh2, _, hnull2, hfmt2⟩ :=
      wireEncode_default_post dWF ((Data.wireEncode dWF dWF d).2.1.setContent c)
    rw [wireEncode_cached_eval dWF dWF _ hcoh2 hnull2 hfmt2]

/-!  Observation lemmas for the default-cache pair and the private setter. -/

theorem observeDefault_of_coherent (d : Data) (h : d.coherent) :
    d.observeDefault = (d.defaultWireEncoding, d.defaultWireEncodingFormat) := by
  unfold Data.observeDefault Data.getDefaultWireEncodingFormat
  dsimp only
  rw [getDefaultWireEncoding_of_coherent d h]

theorem observeDefault_getDefaultWireEncoding_snd (d : Data) :
    d.getDefaultWireEncoding.2.observeDefault = d.observeDefault := by
  rw [observeDefault_of_coherent _ (getDefaultWireEncoding_snd_coherent d)]
  unfold Data.observeDefault Data.getDefaultWireEncodingFormat
  dsimp only
  rw [← getDefaultWireEncoding_fst_eq]

theorem formatOK_getDefaultWireEncoding_snd (dWF : WireFormat) (d : Data)
    (hok : d.formatOK dWF) : d.getDefaultWireEncoding.2.formatOK dWF := by
  by_cases h : d.getDefaultWireEncodingChangeCount = d.getChangeCount.1
  · rw [getDefaultWireEncoding_fresh d h]
    unfold Data.formatOK at hok ⊢
    rw [getChangeCount_snd_dwef]
    exact hok
  · rw [getDefaultWireEncoding_stale d h]
    exact Or.inl rfl

theorem setDefaultWireEncodingPrivate_observe (d : Data) (hs : d.settled)
    (enc : SignedBlob) (fmt : Option Nat) :
    (d.setDefaultWireEncodingPrivate enc fmt).observeDefault = (enc, fmt) := by
  rw [setDefaultWireEncodingPrivate_of_settled d hs enc fmt,
      observeDefault_of_coherent ({ d with defaultWireEncoding := enc, defaultWireEncodingFormat := fmt, getDefaultWireEncodingChangeCount := d.changeCount }) ⟨hs, rfl⟩]

theorem setDefaultWireEncodingPrivate_count (d : Data) (hs : d.settled)
    (enc : SignedBlob) (fmt : Option Nat) :
    (d.setDefaultWireEncodingPrivate
        enc fmt).getDefaultWireEncodingChangeCount =
      (d.setDefaultWireEncodingPrivate enc fmt).getChangeCount.1 := by
  rw [setDefaultWireEncodingPrivate_of_settled d hs enc fmt,
      getChangeCount_of_settled ({ d with defaultWireEncoding := enc, defaultWireEncodingFormat := fmt, getDefaultWireEncodingChangeCount := d.changeCount }) hs]

/-- C5: for every Data packet (with the reachable-state cache-format
invariant) and every wire format whose identity differs from the default
wire format, wireEncode with that format invokes the codec and returns the
freshly built SignedBlob of the codec output on the packet value, and the
observable default-cache pair (getDefaultWireEncoding and then
getDefaultWireEncodingFormat) is unchanged from before the call. -/
theorem wireEncode_nondefault_never_caches (dWF wf : WireFormat) (d : Data)
    (hf : wf.fid ≠ dWF.fid) (hok : d.formatOK dWF) :
    (Data.wireEncode dWF wf d).2.2 = true ∧
    (Data.wireEncode dWF wf d).1 = freshEncoding wf d ∧
    (Data.wireEncode dWF wf d).2.1.observeDefault = d.observeDefault := by
  have hcond : ¬(d.getDefaultWireEncoding.1.isNull = false ∧
      d.getDefaultWireEncoding.2.defaultWireEncodingFormat = some wf.fid) := by
    intro hcon
    have h2 := hcon.2
    rcases formatOK_getDefaultWireEncoding_snd dWF d hok with h | h
    · rw [h] at h2
      exact Option.noConfusion h2
    · rw [h] at h2
      exact hf (Option.some.inj h2).symm
  rw [wireEncode_miss_nondefault dWF wf d hf hcond]
  exact ⟨rfl, freshEncoding_getDefaultWireEncoding_snd wf d,
    observeDefault_getDefaultWireEncoding_snd d⟩

/-- Closed evaluation of C5 at a concrete non-default codec and a freshly
constructed packet, discharging both hypotheses. -/
theorem wireEncode_nondefault_never_caches_witness :
    (Data.wireEncode testCodecA testCodecB (Data.init none)).2.2 = true ∧
    (Data.wireEncode testCodecA testCodecB (Data.init none)).1 =
      freshEncoding testCodecB (Data.init none) ∧
    (Data.wireEncode testCodecA testCodecB
        (Data.init none)).2.1.observeDefault =
      (Data.init none).observeDefault :=
  wireEncode_nondefault_never_caches testCodecA testCodecB (Data.init none)
    (by decide) (Or.inl rfl)

/-- C6: after wireDecode with the default wire format, the observable
default cache holds the SignedBlob built from the input bytes with the
decoded signed-range offsets under the default format identity, and the
recorded cache change count equals the post-decode change count; after
wireDecode with a non-default format, the observable default cache is the
null SignedBlob with no format. -/
theorem wireDecode_cache_update (dWF wf : WireFormat) (d : Data)
    (input : Blob ⊕ List Nat) :
    (wf.fid = dWF.fid →
      (Data.wireDecode dWF wf d input).observeDefault =
        (⟨Blob.ofInput input, (wf.decodeData (bufOf input)).2.1,
          (wf.decodeData (bufOf input)).2.2⟩, some dWF.fid) ∧
      (Data.wireDecode dWF wf d input).getDefaultWireEncodingChangeCount =
        (Data.wireDecode dWF wf d input).getChangeCount.1) ∧
    (wf.fid ≠ dWF.fid →
      (Data.wireDecode dWF wf d input).observeDefault =
        (SignedBlob.null, none)) := by
  constructor
  · intro hf
    unfold Data.wireDecode
    dsimp only
    rw [if_pos hf]
    exact ⟨setDefaultWireEncodingPrivate_observe _
        (settled_setters _ _ _ _) _ _,
      setDefaultWireEncodingPrivate_count _ (settled_setters _ _ _ _) _ _⟩
  · intro hf
    unfold Data.wireDecode
    dsimp only
    rw [if_neg hf]
    exact setDefaultWireEncodingPrivate_observe _
      (settled_setters _ _ _ _) _ _

/-- Closed evaluation of C6 in both directions: a default-format decode at
one concrete input and codec, and a non-default decode at another,
discharging the format hypotheses. -/
theorem wireDecode_cache_update_witness :
    ((Data.wireDecode testCodecA testCodecA (Data.init none)
        (Sum.inr [1, 2, 3])).observeDefault =
      (⟨Blob.ofInput (Sum.inr [1, 2, 3]),
        (testCodecA.decodeData (bufOf (Sum.inr [1, 2, 3]))).2.1,
        (testCodecA.decodeData (bufOf (Sum.inr [1, 2, 3]))).2.2⟩,
       some testCodecA.fid) ∧
     (Data.wireDecode testCodecA testCodecA (Data.init none)
        (Sum.inr [1, 2, 3])).getDefaultWireEncodingChangeCount =
      (Data.wireDecode testCodecA testCodecA (Data.init none)
        (Sum.inr [1, 2, 3])).getChangeCount.1) ∧
    (Data.wireDecode testCodecA testCodecB (Data.init none)
        (Sum.inr [1, 2, 3])).observeDefault = (SignedBlob.null, none) :=
  ⟨(wireDecode_cache_update testCodecA testCodecA (Data.init none)
      (Sum.inr [1, 2, 3])).1 rfl,
   (wireDecode_cache_update testCodecA testCodecB (Data.init none)
      (Sum.inr [1, 2, 3])).2 (by decide)⟩

/-!  Round-trip support lemmas. -/

theorem wireEncode_miss_fst (dWF wf : WireFormat) (d : Data)
    (h : ¬(d.getDefaultWireEncoding.1.isNull = false ∧
           d.getDefaultWireEncoding.2.defaultWireEncodingFormat =
             some wf.fid)) :
    (Data.wireEncode dWF wf d).1 =
      freshEncoding wf d.getDefaultWireEncoding.2 := by
  unfold Data.wireEncode Data.getDefaultWireEncodingFormat
  dsimp only
  rw [if_neg h]
  split <;> rfl

theorem wireDecode_value (dWF wf : WireFormat) (d : Data)
    (input : Blob ⊕ List Nat) :
    (Data.wireDecode dWF wf d input).getName.components =
      (wf.decodeData (bufOf input)).1.1 ∧
    (Data.wireDecode dWF wf d input).getMetaInfo.value =
      (wf.decodeData (bufOf input)).1.2.1 ∧
    (Data.wireDecode dWF wf d input).getContent =
      (wf.decodeData (bufOf input)).1.2.2 := by
  unfold Data.wireDecode
  dsimp only
  split <;>
  · rw [setDefaultWireEncodingPrivate_of_settled _ (settled_setters _ _ _ _)]
    exact ⟨rfl, rfl, rfl⟩

theorem getChangeCount_snd_getName (d : Data) :
    d.getChangeCount.2.getName = d.getName := by
  unfold Data.getName ChangeCounter.get
  exact getChangeCount_snd_nameTarget d

theorem getChangeCount_snd_getMetaInfo (d : Data) :
    d.getChangeCount.2.getMetaInfo = d.getMetaInfo := by
  unfold Data.getMetaInfo ChangeCounter.get
  exact getChangeCount_snd_metaTarget d

theorem getChangeCount_snd_getContent (d : Data) :
    d.getChangeCount.2.getContent = d.getContent := by
  unfold Data.getContent
  exact getChangeCount_snd_content d

theorem bufOf_ofInput (input : Blob ⊕ List Nat) :
    bufOf (Sum.inl (Blob.ofInput input)) = bufOf input := by
  cases input <;> rfl

/-!  The cache-content invariant is preserved by every operation. -/

theorem cacheDecodes_getChangeCount_snd (wf : WireFormat) (d : Data)
    (h : d.cacheDecodes wf) : d.getChangeCount.2.cacheDecodes wf := by
  intro hcur hfmt hnn
  rw [getChangeCount_snd_dwe, getChangeCount_snd_getName,
      getChangeCount_snd_getMetaInfo, getChangeCount_snd_getContent]
  apply h
  · rw [getChangeCount_snd_gdwecc, getChangeCount_idem] at hcur
    exact hcur
  · rw [getChangeCount_snd_dwef] at hfmt
    exact hfmt
  · rw [getChangeCount_snd_dwe] at hnn
    exact hnn

theorem cacheDecodes_getDefaultWireEncoding_snd (wf : WireFormat) (d : Data)
    (h : d.cacheDecodes wf) :
    d.getDefaultWireEncoding.2.cacheDecodes wf := by
  by_cases hfr : d.getDefaultWireEncodingChangeCount = d.getChangeCount.1
  · rw [getDefaultWireEncoding_fresh d hfr]
    exact cacheDecodes_getChangeCount_snd wf d h
  · rw [getDefaultWireEncoding_stale d hfr]
    intro _ _ hnn
    exact Bool.noConfusion hnn

theorem cacheBound_init (n : Option Name) : (Data.init n).cacheBound :=
  Nat.le_refl 0

theorem cacheBound_step (dWF : WireFormat) (d : Data) (op : DataOp)
    (h : d.cacheBound) : (DataOp.step dWF d op).cacheBound := by
  cases op with
  | opSetName n => exact Nat.le_succ_of_le h
  | opSetMetaInfo m => exact Nat.le_succ_of_le h
  | opSetContent c => exact Nat.le_succ_of_le h
  | opGetChangeCount =>
      show d.getChangeCount.2.cacheBound
      unfold Data.cacheBound
      rw [getChangeCount_snd_gdwecc, ← getChangeCount_fst_eq]
      exact Nat.le_trans h (getChangeCount_fst_lower d)
  | opWireEncode wfe =>
      show (Data.wireEncode dWF wfe d).2.1.cacheBound
      unfold Data.wireEncode Data.getDefaultWireEncodingFormat
      dsimp only
      split
      · dsimp only
        exact Nat.le_of_eq (getDefaultWireEncoding_snd_coherent _).2
      · split
        · dsimp only
          rw [setDefaultWireEncodingPrivate_of_settled _
            (getDefaultWireEncoding_snd_coherent d).1]
          exact Nat.le_refl _
        · dsimp only
          exact Nat.le_of_eq (getDefaultWireEncoding_snd_coherent d).2
  | opWireDecode wfe input =>
      show (Data.wireDecode dWF wfe d input).cacheBound
      unfold Data.wireDecode
      dsimp only
      split <;>
      · rw [setDefaultWireEncodingPrivate_of_settled _
          (settled_setters _ _ _ _)]
        exact Nat.le_refl _
  | opGetDefaultWireEncoding =>
      exact Nat.le_of_eq (getDefaultWireEncoding_snd_coherent d).2

theorem cacheDecodes_init (wf : WireFormat) (n : Option Name) :
    (Data.init n).cacheDecodes wf :=
  fun _ _ hnn => Bool.noConfusion hnn

theorem cacheDecodes_step (dWF wf : WireFormat)
    (hinv : ∀ a b c, (dWF.decodeData (dWF.encodeData a b c).1).1 = (a, b, c))
    (hwf : wf.fid = dWF.fid → wf = dWF) (d : Data) (op : DataOp)
    (hop : op.identifiesFormat dWF) (hbound : d.cacheBound)
    (h : d.cacheDecodes wf) : (DataOp.step dWF d op).cacheDecodes wf := by
  have hb : d.getDefaultWireEncodingChangeCount ≤ d.changeCount := hbound
  cases op with
  | opSetName n =>
      intro hcur _ _
      exfalso
      have h1 : d.changeCount + 1 ≤ (d.setName n).getChangeCount.1 :=
        getChangeCount_fst_lower (d.setName n)
      have h2 : d.getDefaultWireEncodingChangeCount =
          (d.setName n).getChangeCount.1 := hcur
      omega
  | opSetMetaInfo m =>
      intro hcur _ _
      exfalso
      have h1 : d.changeCount + 1 ≤ (d.setMetaInfo m).getChangeCount.1 :=
        getChangeCount_fst_lower (d.setMetaInfo m)
      have h2 : d.getDefaultWireEncodingChangeCount =
          (d.setMetaInfo m).getChangeCount.1 := hcur
      omega
  | opSetContent c =>
      intro hcur _ _
      exfalso
      have h1 : d.changeCount + 1 ≤ (d.setContent c).getChangeCount.1 :=
        getChangeCount_fst_lower (d.setContent c)
      have h2 : d.getDefaultWireEncodingChangeCount =
          (d.setContent c).getChangeCount.1 := hcur
      omega
  | opGetChangeCount => exact cacheDecodes_getChangeCount_snd wf d h
  | opGetDefaultWireEncoding =>
      exact cacheDecodes_getDefaultWireEncoding_snd wf d h
  | opWireEncode wfe =>
      by_cases hfid : wfe.fid = dWF.fid
      · obtain rfl := (hop hfid).symm
        by_cases hc : d.getDefaultWireEncoding.1.isNull = false ∧
            d.getDefaultWireEncoding.2.defaultWireEncodingFormat =
              some dWF.fid
        · show (Data.wireEncode dWF dWF d).2.1.cacheDecodes wf
          rw [wireEncode_hit dWF dWF d hc.1 hc.2]
          exact cacheDecodes_getDefaultWireEncoding_snd wf d h
        · show (Data.wireEncode dWF dWF d).2.1.cacheDecodes wf
          rw [wireEncode_miss_default dWF d hc]
          intro _ hfmt _
          obtain rfl := hwf (Option.some.inj hfmt).symm
          exact hinv d.getDefaultWireEncoding.2.getName.components
            d.getDefaultWireEncoding.2.getMetaInfo.value
            d.getDefaultWireEncoding.2.getContent
      · by_cases hc : d.getDefaultWireEncoding.1.isNull = false ∧
            d.getDefaultWireEncoding.2.defaultWireEncodingFormat =
              some wfe.fid
        · show (Data.wireEncode dWF wfe d).2.1.cacheDecodes wf
          rw [wireEncode_hit dWF wfe d hc.1 hc.2]
          exact cacheDecodes_getDefaultWireEncoding_snd wf d h
        · show (Data.wireEncode dWF wfe d).2.1.cacheDecodes wf
          rw [wireEncode_miss_nondefault dWF wfe d hfid hc]
          exact cacheDecodes_getDefaultWireEncoding_snd wf d h
  | opWireDecode wfe input =>
      by_cases hfid : wfe.fid = dWF.fid
      · obtain rfl := (hop hfid).symm
        show (Data.wireDecode dWF dWF d input).cacheDecodes wf
        unfold Data.wireDecode
        dsimp only
        rw [if_pos rfl, setDefaultWireEncodingPrivate_of_settled _
          (settled_setters _ _ _ _)]
        intro _ hfmt _
        obtain rfl := hwf (Option.some.inj hfmt).symm
        dsimp only
        rw [bufOf_ofInput]
        rfl
      · show (Data.wireDecode dWF wfe d input).cacheDecodes wf
        unfold Data.wireDecode
        dsimp only
        rw [if_neg hfid, setDefaultWireEncodingPrivate_of_settled _
          (settled_setters _ _ _ _)]
        intro _ _ hnn
        exact Bool.noConfusion hnn

/-- C9: decoding the bytes produced by wireEncode on a packet P into another
packet with the same wire format yields a packet whose name components,
metaInfo value and content equal those of P, assuming the codec contract
that decode inverts encode at the value of P, for every packet satisfying
the cache-content invariant cacheDecodes (a current non-null cache under
this format decodes to the current value), which holds of every reachable
state (cacheDecodes_init, cacheDecodes_step) including stale caches left by
setters after an encode and caches populated from input bytes by
wireDecode. -/
theorem encode_decode_roundtrip (dWF wf : WireFormat) (P d0 : Data)
    (hcache : P.cacheDecodes wf)
    (hcontract : (wf.decodeData (wf.encodeData P.getName.components
        P.getMetaInfo.value P.getContent).1).1 =
      (P.getName.components, P.getMetaInfo.value, P.getContent)) :
    (Data.wireDecode dWF wf d0
        (Sum.inl (Data.wireEncode dWF wf P).1.blob)).getName.components =
      P.getName.components ∧
    (Data.wireDecode dWF wf d0
        (Sum.inl (Data.wireEncode dWF wf P).1.blob)).getMetaInfo.value =
      P.getMetaInfo.value ∧
    (Data.wireDecode dWF wf d0
        (Sum.inl (Data.wireEncode dWF wf P).1.blob)).getContent =
      P.getContent := by
  have key : (wf.decodeData (bufOf (Sum.inl
      (Data.wireEncode dWF wf P).1.blob))).1 =
      (P.getName.components, P.getMetaInfo.value, P.getContent) := by
    by_cases hc : P.getDefaultWireEncoding.1.isNull = false ∧
        P.getDefaultWireEncoding.2.defaultWireEncodingFormat = some wf.fid
    · rw [wireEncode_hit dWF wf P hc.1 hc.2]
      dsimp only
      by_cases hfr : P.getDefaultWireEncodingChangeCount = P.getChangeCount.1
      · have hfmt : P.defaultWireEncodingFormat = some wf.fid := by
          have h2 := hc.2
          rw [getDefaultWireEncoding_fresh P hfr,
              getChangeCount_snd_dwef] at h2
          exact h2
        have hnn : P.defaultWireEncoding.isNull = false := by
          have h1 := hc.1
          rw [getDefaultWireEncoding_fresh P hfr] at h1
          exact h1
        rw [getDefaultWireEncoding_fresh P hfr]
        exact hcache hfr hfmt hnn
      · exfalso
        have h1 := hc.1
        rw [getDefaultWireEncoding_stale P hfr] at h1
        simp [SignedBlob.isNull, SignedBlob.null, Blob.isNull,
          Blob.null] at h1
    · rw [wireEncode_miss_fst dWF wf P hc,
          freshEncoding_getDefaultWireEncoding_snd]
      exact hcontract
  have hv := wireDecode_value dWF wf d0
    (Sum.inl (Data.wireEncode dWF wf P).1.blob)
  rw [key] at hv
  exact ⟨hv.1, hv.2.1, hv.2.2⟩

/-- Closed evaluation of C9 at a decode-populated packet: the cached bytes
[9, 9] of testDecodedPacket are not the codec encoding of its value, yet
they decode to the value, so the cache-content hypothesis is discharged
non-vacuously (all three of its premises hold) and the encode under test
returns the cached bytes. -/
theorem encode_decode_roundtrip_witness :
    (Data.wireDecode testCodecC testCodecC (Data.init none)
        (Sum.inl (Data.wireEncode testCodecC testCodecC
          testDecodedPacket).1.blob)).getName.components =
      testDecodedPacket.getName.components ∧
    (Data.wireDecode testCodecC testCodecC (Data.init none)
        (Sum.inl (Data.wireEncode testCodecC testCodecC
          testDecodedPacket).1.blob)).getMetaInfo.value =
      testDecodedPacket.getMetaInfo.value ∧
    (Data.wireDecode testCodecC testCodecC (Data.init none)
        (Sum.inl (Data.wireEncode testCodecC testCodecC
          testDecodedPacket).1.blob)).getContent =
      testDecodedPacket.getContent :=
  encode_decode_roundtrip testCodecC testCodecC testDecodedPacket
    (Data.init none) (fun _ _ _ => rfl) rfl

/-!  Monotonicity of the observable change count. -/

theorem getChangeCount_fst_cache2 (d : Data) (e : SignedBlob)
    (f : Option Nat) :
    ({ d with defaultWireEncoding := e, defaultWireEncodingFormat := f }
      : Data).getChangeCount.1 = d.getChangeCount.1 := by
  unfold Data.getChangeCount
  dsimp only
  by_cases h : (d.metaInfo.checkChanged.1 || d.name.checkChanged.1) = true
  · rw [if_pos h, if_pos h]
  · rw [if_neg h, if_neg h]

theorem setDefaultWireEncodingPrivate_observeCount (d : Data)
    (enc : SignedBlob) (fmt : Option Nat) :
    (d.setDefaultWireEncodingPrivate enc fmt).observeCount =
      d.observeCount := by
  unfold Data.setDefaultWireEncodingPrivate Data.observeCount
  dsimp only
  rw [getChangeCount_of_settled ({ ({ d with defaultWireEncoding := enc, defaultWireEncodingFormat := fmt } : Data).getChangeCount.2 with getDefaultWireEncodingChangeCount := ({ d with defaultWireEncoding := enc, defaultWireEncodingFormat := fmt } : Data).getChangeCount.1 }) (getChangeCount_snd_settled ({ d with defaultWireEncoding := enc, defaultWireEncodingFormat := fmt }))]
  dsimp only
  rw [← getChangeCount_fst_eq]
  exact getChangeCount_fst_cache2 d enc fmt

theorem getChangeCount_snd_observeCount (d : Data) :
    d.getChangeCount.2.observeCount = d.observeCount := by
  unfold Data.observeCount
  rw [getChangeCount_idem]

theorem wireEncode_observeCount (dWF wf : WireFormat) (d : Data) :
    (Data.wireEncode dWF wf d).2.1.observeCount = d.observeCount := by
  unfold Data.wireEncode Data.getDefaultWireEncodingFormat
  dsimp only
  split
  · dsimp only
    rw [getDefaultWireEncoding_observeCount, getDefaultWireEncoding_observeCount]
  · split
    · dsimp only
      rw [setDefaultWireEncodingPrivate_observeCount,
          getDefaultWireEncoding_observeCount]
    · dsimp only
      rw [getDefaultWireEncoding_observeCount]

theorem changeCount_le_observeCount (d : Data) :
    d.changeCount ≤ d.observeCount :=
  getChangeCount_fst_lower d

theorem observeCount_setters_ge (d : Data) (n : Name) (m : Option MetaInfo)
    (c : Blob) :
    d.observeCount ≤ (((d.setName n).setMetaInfo m).setContent c).observeCount := by
  have h1 :=
    changeCount_le_observeCount (((d.setName n).setMetaInfo m).setContent c)
  have h2 : (((d.setName n).setMetaInfo m).setContent c).changeCount =
      d.changeCount + 3 := rfl
  rw [h2] at h1
  exact Nat.le_trans (getChangeCount_fst_upper d)
    (Nat.le_trans (by omega) h1)

theorem wireDecode_observeCount_ge (dWF wf : WireFormat) (d : Data)
    (input : Blob ⊕ List Nat) :
    d.observeCount ≤ (Data.wireDecode dWF wf d input).observeCount := by
  unfold Data.wireDecode
  dsimp only
  split <;>
  · rw [setDefaultWireEncodingPrivate_observeCount]
    exact observeCount_setters_ge d _ _ _

theorem observeCount_setName_ge (d : Data) (n : Name) :
    d.observeCount ≤ (d.setName n).observeCount := by
  have h1 := changeCount_le_observeCount (d.setName n)
  have h2 : (d.setName n).changeCount = d.changeCount + 1 := rfl
  rw [h2] at h1
  exact Nat.le_trans (getChangeCount_fst_upper d) h1

theorem observeCount_setMetaInfo_ge (d : Data) (m : Option MetaInfo) :
    d.observeCount ≤ (d.setMetaInfo m).observeCount := by
  have h1 := changeCount_le_observeCount (d.setMetaInfo m)
  have h2 : (d.setMetaInfo m).changeCount = d.changeCount + 1 := rfl
  rw [h2] at h1
  exact Nat.le_trans (getChangeCount_fst_upper d) h1

theorem observeCount_setContent_ge (d : Data) (c : Blob) :
    d.observeCount ≤ (d.setContent c).observeCount := by
  have h1 := changeCount_le_observeCount (d.setContent c)
  have h2 : (d.setContent c).changeCount = d.changeCount + 1 := rfl
  rw [h2] at h1
  exact Nat.le_trans (getChangeCount_fst_upper d) h1

theorem observeCount_mono_step (dWF : WireFormat) (d : Data) (op : DataOp) :
    d.observeCount ≤ (DataOp.step dWF d op).observeCount := by
  cases op with
  | opSetName n => exact observeCount_setName_ge d n
  | opSetMetaInfo m => exact observeCount_setMetaInfo_ge d m
  | opSetContent c => exact observeCount_setContent_ge d c
  | opGetChangeCount =>
      exact Nat.le_of_eq (getChangeCount_snd_observeCount d).symm
  | opWireEncode wf =>
      exact Nat.le_of_eq (wireEncode_observeCount dWF wf d).symm
  | opWireDecode wf input =>
      exact wireDecode_observeCount_ge dWF wf d input
  | opGetDefaultWireEncoding =>
      exact Nat.le_of_eq (getDefaultWireEncoding_observeCount d).symm

theorem observeCount_mono_foldl (dWF : WireFormat) (ops : List DataOp)
    (d : Data) :
    d.observeCount ≤ (ops.foldl (DataOp.step dWF) d).observeCount := by
  induction ops generalizing d with
  | nil => exact Nat.le_refl _
  | cons op rest ih =>
      exact Nat.le_trans (observeCount_mono_step dWF d op) (ih _)

/-- C10: the value returned by getChangeCount never decreases: for every
packet, the value returned by a getChangeCount call is at most the value
returned by a later getChangeCount call separated by any sequence of public
operations, and two consecutive getChangeCount calls with no operation in
between return the same value. -/
theorem getChangeCount_monotone (dWF : WireFormat) (d : Data)
    (ops : List DataOp) :
    d.getChangeCount.1 ≤
      (ops.foldl (DataOp.step dWF) d.getChangeCount.2).getChangeCount.1 ∧
    d.getChangeCount.2.getChangeCount.1 = d.getChangeCount.1 := by
  constructor
  · have h := observeCount_mono_foldl dWF ops d.getChangeCount.2
    unfold Data.observeCount at h
    rw [getChangeCount_idem] at h
    exact h
  · rw [getChangeCount_idem]

/-!  The cache-format invariant holds of every reachable packet state. -/

theorem formatOK_init (dWF : WireFormat) (n : Option Name) :
    (Data.init n).formatOK dWF :=
  Or.inl rfl

theorem formatOK_step (dWF : WireFormat) (d : Data) (op : DataOp)
    (hok : d.formatOK dWF) : (DataOp.step dWF d op).formatOK dWF := by
  cases op with
  | opSetName n => exact hok
  | opSetMetaInfo m => exact hok
  | opSetContent c => exact hok
  | opGetChangeCount =>
      show d.getChangeCount.2.formatOK dWF
      unfold Data.formatOK at hok ⊢
      rw [getChangeCount_snd_dwef]
      exact hok
  | opWireEncode wf =>
      show (Data.wireEncode dWF wf d).2.1.formatOK dWF
      unfold Data.wireEncode Data.getDefaultWireEncodingFormat
      dsimp only
      split
      · dsimp only
        exact formatOK_getDefaultWireEncoding_snd dWF _
          (formatOK_getDefaultWireEncoding_snd dWF d hok)
      · split
        · dsimp only
          rw [setDefaultWireEncodingPrivate_of_settled _
            (getDefaultWireEncoding_snd_coherent d).1]
          exact Or.inr rfl
        · dsimp only
          exact formatOK_getDefaultWireEncoding_snd dWF d hok
  | opWireDecode wf input =>
      show (Data.wireDecode dWF wf d input).formatOK dWF
      unfold Data.wireDecode
      dsimp only
      split
      · rw [setDefaultWireEncodingPrivate_of_settled _
          (settled_setters _ _ _ _)]
        exact Or.inr rfl
      · rw [setDefaultWireEncodingPrivate_of_settled _
          (settled_setters _ _ _ _)]
        exact Or.inl rfl
  | opGetDefaultWireEncoding =>
      exact formatOK_getDefaultWireEncoding_snd dWF d hok

/-!  The identity storage theorems. -/

theorem getNewKeyName_eval (dke : List String → Bool) (idn : Name)
    (useKsk : Bool) (ms : Nat) :
    getNewKeyName dke idn useKsk ms =
      if dke (idn.components ++
          [(if useKsk then "KSK-" else "DSK-") ++ toString (ms / 1000)]) then
        Except.error (PyError.securityException "Key name already exists")
      else
        Except.ok ⟨idn.components ++
          [(if useKsk then "KSK-" else "DSK-") ++ toString (ms / 1000)],
          idn.nameChangeCount + 1⟩ := by
  unfold getNewKeyName Name.append
  cases useKsk <;> rfl

/-- C3: getNewKeyName returns the identity name extended by exactly one
component, KSK- followed by the unix-second count when useKsk is true and
DSK- followed by it otherwise, and raises the naming-collision security
error exactly when doesKeyExist reports the generated name. -/
theorem getNewKeyName_naming_policy (dke : List String → Bool) (idn : Name)
    (useKsk : Bool) (ms : Nat) :
    ((getNewKeyName dke idn useKsk ms =
        Except.error (PyError.securityException "Key name already exists")) ↔
      dke (idn.components ++
        [(if useKsk then "KSK-" else "DSK-") ++ toString (ms / 1000)]) =
        true) ∧
    (dke (idn.components ++
        [(if useKsk then "KSK-" else "DSK-") ++ toString (ms / 1000)]) =
        false →
      ∃ n, getNewKeyName dke idn useKsk ms = Except.ok n ∧
        n.components = idn.components ++
          [(if useKsk then "KSK-" else "DSK-") ++ toString (ms / 1000)]) := by
  rw [getNewKeyName_eval]
  by_cases h : dke (idn.components ++
      [(if useKsk then "KSK-" else "DSK-") ++ toString (ms / 1000)]) = true
  · rw [if_pos h]
    refine ⟨⟨fun _ => h, fun _ => rfl⟩, fun hfalse => ?_⟩
    rw [h] at hfalse
    exact Bool.noConfusion hfalse
  · rw [if_neg h]
    refine ⟨⟨fun he => Except.noConfusion he, fun ht => absurd ht h⟩,
      fun _ => ⟨_, rfl, rfl⟩⟩

/-- Closed evaluation of C3: a colliding store raises the security error,
and an empty store yields /alice/KSK-1 at unix millisecond time 1500. -/
theorem getNewKeyName_naming_policy_witness :
    getNewKeyName (fun c => decide (c = ["alice", "KSK-1"])) ⟨["alice"], 0⟩
        true 1500 =
      Except.error (PyError.securityException "Key name already exists") ∧
    ∃ n, getNewKeyName (fun _ => false) ⟨["alice"], 0⟩ true 1500 =
        Except.ok n ∧ n.components = ["alice", "KSK-1"] := by
  constructor
  · exact (getNewKeyName_naming_policy (fun c => decide (c = ["alice", "KSK-1"]))
      ⟨["alice"], 0⟩ true 1500).1.mpr (by decide)
  · obtain ⟨n, hn, hc⟩ := (getNewKeyName_naming_policy (fun _ => false)
      ⟨["alice"], 0⟩ true 1500).2 rfl
    exact ⟨n, hn, by rw [hc]; decide⟩

/-- C4, settled against the code: the body of
getDefaultCertificateNameForIdentity resolves the bare global name
getDefaultCertificateNameForKey instead of going through self, and the
module scope binds no such global, so the call raises NameError at every
identity whose default key resolves, instead of returning the default
certificate name of the default key. -/
theorem getDefaultCertificateNameForIdentity_raises_nameError :
    IdentityStorageBase.getDefaultCertificateNameForIdentity
        (fun _ => Except.ok ⟨["alice", "KSK-1"], 0⟩) ⟨["alice"], 0⟩ =
      Except.error (PyError.nameError "getDefaultCertificateNameForKey") := rfl

/-- C7: getNewKeyName leaves the store state unchanged whether it returns a
name or raises the collision error; its only storage operation is the
read-only doesKeyExist check. -/
theorem getNewKeyName_no_storage_mutation (st : StoreState) (idn : Name)
    (useKsk : Bool) (ms : Nat) :
    (getNewKeyNameSt st idn useKsk ms).2 = st := by
  unfold getNewKeyNameSt StoreState.doesKeyExist
  dsimp only
  split <;> split <;> rfl

/-- C8: every storage operation left unimplemented by the abstract base
class raises a runtime not-implemented error when invoked on the base class,
for every argument value, and leaves the store state unchanged. -/
theorem base_methods_not_implemented (st : StoreState) (idn kn cn : Name)
    (keyType : Nat) (der : Blob) (cert : List Nat) (allowAny : Bool)
    (inc : Option Name) :
    notImplementedResult (IdentityStorageBase.doesIdentityExist st idn) st ∧
    notImplementedResult (IdentityStorageBase.addIdentity st idn) st ∧
    notImplementedResult (IdentityStorageBase.revokeIdentity st) st ∧
    notImplementedResult (IdentityStorageBase.doesKeyExist st kn) st ∧
    notImplementedResult (IdentityStorageBase.addKey st kn keyType der) st ∧
    notImplementedResult (IdentityStorageBase.getKey st kn) st ∧
    notImplementedResult (IdentityStorageBase.activateKey st kn) st ∧
    notImplementedResult (IdentityStorageBase.deactivateKey st kn) st ∧
    notImplementedResult
      (IdentityStorageBase.doesCertificateExist st cn) st ∧
    notImplementedResult (IdentityStorageBase.addCertificate st cert) st ∧
    notImplementedResult
      (IdentityStorageBase.getCertificate st cn allowAny) st ∧
    notImplementedResult (IdentityStorageBase.getDefaultIdentity st) st ∧
    notImplementedResult
      (IdentityStorageBase.getDefaultKeyNameForIdentity st idn) st ∧
    notImplementedResult
      (IdentityStorageBase.getDefaultCertificateNameForKey st kn) st ∧
    notImplementedResult (IdentityStorageBase.setDefaultIdentity st idn) st ∧
    notImplementedResult
      (IdentityStorageBase.setDefaultKeyNameForIdentity st kn inc) st ∧
    notImplementedResult
      (IdentityStorageBase.setDefaultCertificateNameForKey st kn cn) st := by
  exact ⟨⟨⟨"doesIdentityExist", rfl⟩, rfl⟩,
    ⟨⟨"doesIdentityExist", rfl⟩, rfl⟩,
    ⟨⟨"doesIdentityExist", rfl⟩, rfl⟩,
    ⟨⟨"doesKeyExist", rfl⟩, rfl⟩,
    ⟨⟨"addKey", rfl⟩, rfl⟩,
    ⟨⟨"getKey", rfl⟩, rfl⟩,
    ⟨⟨"activateKey", rfl⟩, rfl⟩,
    ⟨⟨"deactivateKey", rfl⟩, rfl⟩,
    ⟨⟨"doesCertificateExist", rfl⟩, rfl⟩,
    ⟨⟨"addCertificate", rfl⟩, rfl⟩,
    ⟨⟨"getCertificate", rfl⟩, rfl⟩,
    ⟨⟨"getDefaultIdentity", rfl⟩, rfl⟩,
    ⟨⟨"getDefaultKeyNameForIdentity", rfl⟩, rfl⟩,
    ⟨⟨"getDefaultCertificateNameForKey", rfl⟩, rfl⟩,
    ⟨⟨"setDefaultIdentity", rfl⟩, rfl⟩,
    ⟨⟨"setDefaultKeyNameForIdentity", rfl⟩, rfl⟩,
    ⟨⟨"setDefaultCertificateNameForKey", rfl⟩, rfl⟩⟩

end PyNDN
